import Mathlib

/-!
Shallow embedding of the trust-establishment and abuse-detection core of the
pttrns backend: the in-memory session store and sweep, the suspicious-activity
detector, the listen ledger transaction, the API-key issuance transaction, the
session-creation route and the sign-data verifier.  Times are modelled as `Int`
milliseconds (or seconds where the source uses seconds); JS `Map`s are modelled
as insertion-ordered association lists.
-/

namespace Pttrns

/-! ## JS `Map` model (insertion-ordered association list) -/

/-- Model of `Map.get(k)`: the value of the first (unique) entry with key `k`. -/
def mapGet {α : Type} (m : List (String × α)) (k : String) : Option α :=
  (m.find? (fun p => p.1 == k)).map (fun p => p.2)

/-- Model of `Map.set(k, v)`: replace the entry in place if the key is present,
otherwise append at the end (JS `Map` preserves insertion order). -/
def mapSet {α : Type} (m : List (String × α)) (k : String) (v : α) :
    List (String × α) :=
  if m.any (fun p => p.1 == k) then
    m.map (fun p => if p.1 == k then (k, v) else p)
  else
    m ++ [(k, v)]

/-- Model of `Map.delete(k)`. -/
def mapDelete {α : Type} (m : List (String × α)) (k : String) :
    List (String × α) :=
  m.filter (fun p => p.1 != k)

/-! ## Session store (middleware: `activeSessions`, `userSessions`) -/

/-- Model of `SessionData` from the middleware. -/
structure SessionData where
  sessionId : String
  userAddress : String
  createdAt : Int
  expiresAt : Int
  signatureVerified : Bool
deriving DecidableEq, Repr

/-- The two in-memory indices: `activeSessions : Map<sessionId, SessionData>`
and `userSessions : Map<address, sessionId>`. -/
structure SessionStore where
  activeSessions : List (String × SessionData)
  userSessions : List (String × String)
deriving DecidableEq, Repr

/-- Model of `addSession`: sets both indices. -/
def addSession (st : SessionStore) (sessionId : String) (sd : SessionData) :
    SessionStore :=
  { activeSessions := mapSet st.activeSessions sessionId sd
    userSessions := mapSet st.userSessions sd.userAddress sessionId }

/-- Model of `getSession`: a plain map lookup — the source performs no expiry check here. -/
def getSession (st : SessionStore) (sessionId : String) : Option SessionData :=
  mapGet st.activeSessions sessionId

/-- Model of `getUserSession`: a plain map lookup — the source performs no expiry check here. -/
def getUserSession (st : SessionStore) (userAddress : String) : Option String :=
  mapGet st.userSessions userAddress

/-- Model of `removeSession`. -/
def removeSession (st : SessionStore) (sessionId : String) : SessionStore :=
  match mapGet st.activeSessions sessionId with
  | some s =>
      { activeSessions := mapDelete st.activeSessions sessionId
        userSessions := mapDelete st.userSessions s.userAddress }
  | none => st

/-- One iteration of the cleanup loop body: if the entry is expired
(`now > session.expiresAt`), delete it from both indices. -/
def sweepStep (now : Int) (acc : SessionStore) (p : String × SessionData) :
    SessionStore :=
  if now > p.2.expiresAt then
    { activeSessions := mapDelete acc.activeSessions p.1
      userSessions := mapDelete acc.userSessions p.2.userAddress }
  else acc

/-- The periodic session sweep (`setInterval` body): iterate over the entries
of `activeSessions` and delete every expired one from both indices. -/
def sweepSessions (st : SessionStore) (now : Int) : SessionStore :=
  st.activeSessions.foldl (sweepStep now) st

/-- The `checkSession` middleware read: looks the session up by id and, unlike
`getSession`, checks expiry synchronously, removing an expired record. -/
def checkSessionRead (st : SessionStore) (sessionId : String) (now : Int) :
    Option SessionData × SessionStore :=
  match getSession st sessionId with
  | none => (none, st)
  | some s =>
      if now > s.expiresAt then
        (none,
         { activeSessions := mapDelete st.activeSessions sessionId
           userSessions := mapDelete st.userSessions s.userAddress })
      else (some s, st)

/-! ## Relational-store rows -/

/-- A `session_listens` row; the table carries `UNIQUE(user_address, nft_address)`.
(The `id` serial column is irrelevant to the logic and omitted.) -/
structure SessionListenRow where
  userAddress : String
  nftAddress : String
  collectionAddress : String
  sessionId : String
  count : Nat
  firstRecorded : Int
  lastRecorded : Int
deriving DecidableEq, Repr

/-- A `listens` row (per-NFT aggregate); the table carries `UNIQUE(nft_address)`. -/
structure ListenRow where
  nftAddress : String
  collectionAddress : String
  count : Nat
  lastUpdated : Int
deriving DecidableEq, Repr

/-- An `nfts` row (only the columns the session-listen upsert touches). -/
structure NftRow where
  address : String
  collectionAddress : String
  firstListen : Int
  updatedAt : Int
deriving DecidableEq, Repr

/-- A `user_blocks` row. -/
structure UserBlockRow where
  userAddress : String
  reason : String
  blockedUntil : Option Int
  isActive : Bool
deriving DecidableEq, Repr

/-- Severity tiers of the `suspicious_activities` audit log. -/
inductive Severity where
  | low
  | medium
  | high
  | critical
deriving DecidableEq, Repr

/-- A `suspicious_activities` row (the JSONB metadata column is not modelled). -/
structure SuspiciousActivityRow where
  userAddress : String
  activityType : String
  description : String
  severity : Severity
deriving DecidableEq, Repr

/-- An `api_keys` row. -/
structure ApiKeyRow where
  key : String
  address : String
  createdAt : Int
  expiresAt : Int
deriving DecidableEq, Repr

/-- The relational-store state visible to the detector and the ledger.
`blockQueryError` models the `user_blocks` lookup raising a data-layer error
(the `catch` branch of `checkUserBlock`). -/
structure DbState where
  sessionListens : List SessionListenRow
  listens : List ListenRow
  nfts : List NftRow
  userBlocks : List UserBlockRow
  suspiciousActivities : List SuspiciousActivityRow
  blockQueryError : Bool
deriving DecidableEq, Repr

/-! ## Suspicious-activity detector (middleware) -/

/-- Result shape of `checkUserBlock`. -/
structure BlockCheckResult where
  isBlocked : Bool
  reason : Option String
deriving DecidableEq, Repr

/-- The `user_blocks` WHERE clause: `user_address = $1 AND is_active = TRUE
AND (blocked_until IS NULL OR blocked_until > NOW())`. -/
def blockRowMatches (u : String) (now : Int) (b : UserBlockRow) : Bool :=
  b.userAddress == u && b.isActive &&
    (match b.blockedUntil with
     | none => true
     | some t => now < t)

/-- Model of `checkUserBlock`: returns blocked with the row's reason when an active,
unexpired block exists; a data-layer error is caught and yields "not blocked". -/
def checkUserBlock (st : DbState) (u : String) (now : Int) : BlockCheckResult :=
  if st.blockQueryError then { isBlocked := false, reason := none }
  else
    match st.userBlocks.find? (blockRowMatches u now) with
    | some b => { isBlocked := true, reason := some b.reason }
    | none => { isBlocked := false, reason := none }

/-- Model of `logSuspiciousActivity`: appends an audit row. -/
def logSuspiciousActivity (st : DbState) (u activityType description : String)
    (severity : Severity) : DbState :=
  { st with suspiciousActivities :=
      st.suspiciousActivities ++ [⟨u, activityType, description, severity⟩] }

/-- The hourly-volume query: `COUNT(*)` of `session_listens` rows of the user
with `last_recorded > to_timestamp((now - 3600000) / 1000)`. -/
def hourlyListenCount (rows : List SessionListenRow) (u : String) (now : Int) : Nat :=
  (rows.filter (fun r => r.userAddress == u &&
    decide (now - 60 * 60 * 1000 < r.lastRecorded))).length

/-- The daily-volume query: same shape over a trailing 24-hour window. -/
def dailyListenCount (rows : List SessionListenRow) (u : String) (now : Int) : Nat :=
  (rows.filter (fun r => r.userAddress == u &&
    decide (now - 24 * 60 * 60 * 1000 < r.lastRecorded))).length

/-- The per-NFT repetition query: rows of this exact (user, nft) pair in the
trailing 60 minutes. -/
def sameNftListenCount (rows : List SessionListenRow) (u n : String) (now : Int) : Nat :=
  (rows.filter (fun r => r.userAddress == u && r.nftAddress == n &&
    decide (now - 60 * 60 * 1000 < r.lastRecorded))).length

/-- Result shape of `detectSuspiciousActivity`. -/
structure DetectResult where
  isSuspicious : Bool
  reason : Option String
deriving DecidableEq, Repr

/-- Model of `detectSuspiciousActivity(userAddress, nftAddress, timestamp)`: block check,
hourly volume (> 50 ⇒ high), daily volume (> 500 ⇒ critical), per-NFT
repetition (> 10 ⇒ medium), in order.  The source never reads its `timestamp`
argument; all cutoffs use `Date.now()`, passed here as `now`. -/
def detectSuspiciousActivity (st : DbState) (userAddress nftAddress : String)
    (_timestamp : Int) (now : Int) : DetectResult × DbState :=
  let blockCheck := checkUserBlock st userAddress now
  if blockCheck.isBlocked then
    ({ isSuspicious := true
       reason := some ("Пользователь заблокирован: " ++ blockCheck.reason.getD "undefined") }, st)
  else
    let hourlyListens := hourlyListenCount st.sessionListens userAddress now
    if hourlyListens > 50 then
      ({ isSuspicious := true, reason := some "Превышено количество прослушиваний в час" },
       logSuspiciousActivity st userAddress "excessive_hourly_listens"
         (toString hourlyListens ++ " прослушиваний за час") Severity.high)
    else
      let dailyListens := dailyListenCount st.sessionListens userAddress now
      if dailyListens > 500 then
        ({ isSuspicious := true, reason := some "Превышено количество прослушиваний в день" },
         logSuspiciousActivity st userAddress "excessive_daily_listens"
           (toString dailyListens ++ " прослушиваний за день") Severity.critical)
      else
        let recentSameNftListens := sameNftListenCount st.sessionListens userAddress nftAddress now
        if recentSameNftListens > 10 then
          ({ isSuspicious := true, reason := some "Слишком много прослушиваний одного NFT" },
           logSuspiciousActivity st userAddress "excessive_same_nft_listens"
             (toString recentSameNftListens ++ " прослушиваний одного NFT за час") Severity.medium)
        else
          ({ isSuspicious := false, reason := none }, st)

/-! ## Listen ledger (`POST /api/session-listens` transaction) -/

/-- The `session_listens` upsert: `INSERT ... count = 1, last_recorded = ts
ON CONFLICT (user_address, nft_address) DO UPDATE count + 1, last_recorded = ts,
session_id = sid`.  `first_recorded` defaults to `NOW()` on insert. -/
def upsertSessionListen (rows : List SessionListenRow)
    (user nft collection sid : String) (ts now : Int) : List SessionListenRow :=
  if rows.any (fun r => r.userAddress == user && r.nftAddress == nft) then
    rows.map (fun r =>
      if r.userAddress == user && r.nftAddress == nft then
        { r with count := r.count + 1, lastRecorded := ts, sessionId := sid }
      else r)
  else
    rows ++ [⟨user, nft, collection, sid, 1, now, ts⟩]

/-- The `nfts` upsert: `INSERT ... ON CONFLICT (address) DO UPDATE
collection_address = $2, updated_at = NOW()`. -/
def upsertNft (rows : List NftRow) (nft collection : String) (now : Int) :
    List NftRow :=
  if rows.any (fun r => r.address == nft) then
    rows.map (fun r =>
      if r.address == nft then
        { r with collectionAddress := collection, updatedAt := now }
      else r)
  else
    rows ++ [⟨nft, collection, now, now⟩]

/-- The `listens` upsert: `INSERT ... count = 1 ON CONFLICT (nft_address)
DO UPDATE count + 1, last_updated = NOW()`. -/
def upsertListen (rows : List ListenRow) (nft collection : String) (now : Int) :
    List ListenRow :=
  if rows.any (fun r => r.nftAddress == nft) then
    rows.map (fun r =>
      if r.nftAddress == nft then
        { r with count := r.count + 1, lastUpdated := now }
      else r)
  else
    rows ++ [⟨nft, collection, 1, now⟩]

/-- The committed effect of the three upserts of the transaction. -/
def commitSessionListen (st : DbState) (user nft collection sid : String)
    (ts now : Int) : DbState :=
  { st with
    sessionListens := upsertSessionListen st.sessionListens user nft collection sid ts now
    nfts := upsertNft st.nfts nft collection now
    listens := upsertListen st.listens nft collection now }

/-- The `/api/session-listens` transaction (`BEGIN` … `COMMIT`/`ROLLBACK`):
read the most recent prior `(user, nft)` row; reject with 429 and roll back if
the client timestamp is within 30 seconds of its `last_recorded`; otherwise
perform the three upserts and return the updated per-user count. -/
def recordSessionListen (st : DbState) (user nft collection sid : String)
    (ts now : Int) : Except String Nat × DbState :=
  match st.sessionListens.find? (fun r => r.userAddress == user && r.nftAddress == nft) with
  | some r =>
      if ts - r.lastRecorded < 30000 then
        (Except.error "Слишком частые запросы прослушивания", st)
      else
        (Except.ok (r.count + 1), commitSessionListen st user nft collection sid ts now)
  | none =>
      (Except.ok 1, commitSessionListen st user nft collection sid ts now)

/-- The per-(user, nft) count: the `count` column of the pair's row, 0 if absent. -/
def pairCount (st : DbState) (user nft : String) : Nat :=
  match st.sessionListens.find? (fun r => r.userAddress == user && r.nftAddress == nft) with
  | some r => r.count
  | none => 0

/-- The per-(user, nft) `last_recorded` value, if the row exists. -/
def pairLast (st : DbState) (user nft : String) : Option Int :=
  (st.sessionListens.find? (fun r => r.userAddress == user && r.nftAddress == nft)).map
    (fun r => r.lastRecorded)

/-- The per-NFT aggregate count: the `count` column of the `listens` row, 0 if absent. -/
def nftAggCount (st : DbState) (nft : String) : Nat :=
  match st.listens.find? (fun r => r.nftAddress == nft) with
  | some r => r.count
  | none => 0

/-! ## API-key issuance (`saveApiKey`) -/

/-- Model of `saveApiKey(apiKey, address, created, expires)`: normalize the address,
then in one transaction delete every key of that address or with a past expiry
and insert the new key.  `normalize` stands for `Address.parse(·).toString()`
(`none` models the parse throwing). -/
def saveApiKey (normalize : String → Option String) (keys : List ApiKeyRow)
    (apiKey address : String) (created expires now : Int) :
    Except String (List ApiKeyRow) :=
  match normalize address with
  | none => Except.error "invalid address"
  | some normalizedAddress =>
      Except.ok
        ((keys.filter (fun k =>
            !(k.address == normalizedAddress || decide (k.expiresAt < now)))) ++
         [⟨apiKey, normalizedAddress, created, expires⟩])

/-! ## Session creation (`POST /api/session/create`) -/

/-- The exact message text the route requires the wallet to have signed. -/
def expectedText : String :=
  "Подтвердите начало сессии прослушивания. Подписывая это сообщение, вы соглашаетесь с условиями честного использования NFT-аудио в рамках децентрализованной платформы. \nВаша подпись верифицируется в блокчейне и подтверждает легальное прослушивание токенизированного контента. \nСессия длится 1 час.\n\nPatternsNft"

/-- The request body of `/api/session/create` (payload flattened to its
`type`/`text` fields). -/
structure SignDataRequest where
  signature : String
  address : String
  timestamp : Int
  domain : String
  payloadType : String
  payloadText : String
  public_key : String
  walletStateInit : String
deriving DecidableEq, Repr

/-- The route's outcome: a 4xx error body or the session response. -/
inductive CreateResponse where
  | badRequest (error : String)
  | ok (sessionId : String) (expiresAt : Int)
deriving DecidableEq, Repr

/-- A `listening_sessions` audit row (monitoring copy of the session). -/
structure AuditRow where
  sessionId : String
  userAddress : String
  createdAt : Int
  expiresAt : Int
deriving DecidableEq, Repr

/-- Server state touched by the route: the in-memory store and the
`listening_sessions` audit table. -/
structure ServerState where
  store : SessionStore
  listeningSessions : List AuditRow
deriving DecidableEq, Repr

/-- External collaborators of the route: `Address.parse(·).toString()`
(`none` models the parse throwing) and `jwt.sign` over the claim set
`{address, domain, timestamp, type}` with the backend secret. -/
structure CreateEnv where
  normalizeAddress : String → Option String
  jwtSign : String → String → Int → String

/-- The tail of the route after the existing-session branch falls through:
verify the signature (its verdict is the `sigValid` argument, the awaited
result of `signDataService.checkSignData`), then mint the session, store it in
both in-memory indices and append the monitoring row. -/
def verifyAndCreateSession (env : CreateEnv) (st : ServerState)
    (req : SignDataRequest) (now : Int) (sigValid : Bool)
    (normalizedAddress : String) : CreateResponse × ServerState :=
  if !sigValid then (CreateResponse.badRequest "Неверная подпись сообщения", st)
  else
    let sessionId := env.jwtSign normalizedAddress req.domain req.timestamp
    let expiresAt := now + 60 * 60 * 1000
    let sd : SessionData := ⟨sessionId, normalizedAddress, now, expiresAt, true⟩
    (CreateResponse.ok sessionId expiresAt,
     { store := addSession st.store sessionId sd
       listeningSessions := st.listeningSessions ++
         [⟨sessionId, normalizedAddress, now, expiresAt⟩] })

/-- The `/api/session/create` handler.  `now` is `Date.now()` in ms; the
source's `Math.floor(Date.now() / 1000)` is `now / 1000`.  In order: field
presence (JS falsiness), payload type/text, 5-minute staleness, expected text,
address normalization, the existing-session short-circuit, then signature
verification and creation. -/
def createListeningSession (env : CreateEnv) (st : ServerState)
    (req : SignDataRequest) (now : Int) (sigValid : Bool) :
    CreateResponse × ServerState :=
  if req.signature = "" ∨ req.address = "" ∨ req.timestamp = 0 ∨ req.domain = "" then
    (CreateResponse.badRequest "Неполные данные подписи", st)
  else if req.payloadType ≠ "text" ∨ req.payloadText = "" then
    (CreateResponse.badRequest "Неверный тип данных подписи", st)
  else if now / 1000 - req.timestamp > 5 * 60 then
    (CreateResponse.badRequest "Подпись устарела", st)
  else if req.payloadText ≠ expectedText then
    (CreateResponse.badRequest "Неверное содержимое сообщения", st)
  else
    match env.normalizeAddress req.address with
    | none => (CreateResponse.badRequest "Неверный формат адреса", st)
    | some normalizedAddress =>
        match getUserSession st.store normalizedAddress with
        | some existingSessionId =>
            match getSession st.store existingSessionId with
            | some existingSession =>
                if now < existingSession.expiresAt then
                  (CreateResponse.ok existingSessionId existingSession.expiresAt, st)
                else
                  verifyAndCreateSession env st req now sigValid normalizedAddress
            | none => verifyAndCreateSession env st req now sigValid normalizedAddress
        | none => verifyAndCreateSession env st req now sigValid normalizedAddress

/-! ## Sign-data verifier (`SignDataService.checkSignData`) -/

/-- The tagged payload union of the sign-data envelope. -/
inductive SignDataPayload where
  | text (text : String)
  | binary (bytes : String)
  | cell (cell : String) (schema : String)
deriving DecidableEq, Repr

/-- Model of `CheckSignDataRequestDto`. -/
structure CheckSignDataRequestDto where
  signature : String
  address : String
  timestamp : Int
  domain : String
  payload : SignDataPayload
  public_key : String
  walletStateInit : String
deriving DecidableEq, Repr

/-- The explicit domain allow-list of the service. -/
def allowedDomains : List String :=
  ["pikromachess-tma-patterns-47ab.twc1.net", "localhost:5173", "localhost:3000"]

/-- Model of `validAuthTime`: 15 minutes, in seconds. -/
def validAuthTime : Int := 15 * 60

/-- The result of `Address.parse`: workchain and 32-byte account hash. -/
structure ParsedAddress where
  workChain : Int
  hash : List Nat
deriving DecidableEq, Repr

/-- External collaborators of the verifier (`@ton/core`, `@ton/crypto`,
`tweetnacl`, `crc-32`) and the injected public-key resolver.  Fallible library
calls return `Except`; `Except.error` models a thrown exception. -/
structure SignEnv where
  parseAddress : String → Option ParsedAddress
  resolveKey : String → Except String (Option (List Nat))
  sha256 : List Nat → List Nat
  ed25519Verify : List Nat → List Nat → List Nat → Bool
  decodeBase64 : String → List Nat
  crc32 : List Nat → Int
  cellFromBase64 : String → Except String (List Nat)
  buildCellMessageHash : Nat → Int → ParsedAddress → List Nat → List Nat →
    Except String (List Nat)
  now : Int

/-- UTF-8 bytes of a string (`Buffer.from(s, "utf8")`). -/
def utf8Bytes (s : String) : List Nat :=
  s.toUTF8.toList.map (fun b => b.toNat)

/-- Model of `writeInt32BE`: big-endian two's-complement of a 32-bit signed value. -/
def int32BE (n : Int) : List Nat :=
  let m := (n % 4294967296).toNat
  [m / 16777216 % 256, m / 65536 % 256, m / 256 % 256, m % 256]

/-- Model of `writeUInt32BE`. -/
def uint32BE (n : Nat) : List Nat :=
  [n / 16777216 % 256, n / 65536 % 256, n / 256 % 256, n % 256]

/-- Model of `writeBigUInt64BE`. -/
def uint64BE (n : Nat) : List Nat :=
  uint32BE (n / 4294967296) ++ uint32BE (n % 4294967296)

/-- Model of `createTextBinaryHash`: the fixed 2-byte marker, the ASCII protocol tag,
workchain, address hash, domain length and bytes, 64-bit timestamp, the 3-byte
type tag, content length and bytes, hashed with sha256.  `writeInt32BE` /
`writeBigUInt64BE` throw `RangeError` outside their ranges. -/
def createTextBinaryHash (env : SignEnv) (isText : Bool) (content : String)
    (parsedAddr : ParsedAddress) (domain : String) (timestamp : Int) :
    Except String (List Nat) :=
  if parsedAddr.workChain < -2147483648 ∨ 2147483648 ≤ parsedAddr.workChain then
    Except.error "RangeError: workchain out of int32 range"
  else if timestamp < 0 ∨ 18446744073709551616 ≤ timestamp then
    Except.error "RangeError: timestamp out of uint64 range"
  else
    let wcBuffer := int32BE parsedAddr.workChain
    let domainBuffer := utf8Bytes domain
    let domainLenBuffer := uint32BE domainBuffer.length
    let tsBuffer := uint64BE timestamp.toNat
    let typeTag := utf8Bytes (if isText then "txt" else "bin")
    let payloadBuffer := if isText then utf8Bytes content else env.decodeBase64 content
    let payloadLenBuffer := uint32BE payloadBuffer.length
    Except.ok (env.sha256
      ([0xff, 0xff] ++ utf8Bytes "ton-connect/sign-data/" ++ wcBuffer ++
       parsedAddr.hash ++ domainLenBuffer ++ domainBuffer ++ tsBuffer ++
       typeTag ++ payloadLenBuffer ++ payloadBuffer))

/-- Model of `encodeDomainDnsLike`: reversed dot-separated labels, each
null-terminated (UTF-16 code units, which agree with code points here). -/
def encodeDomainDnsLike (domain : String) : List Nat :=
  ((domain.splitOn ".").reverse).foldl
    (fun acc part => acc ++ part.toList.map Char.toNat ++ [0]) []

/-- Model of `createCellHash`: parse the payload cell, crc32 the schema (`>>> 0`),
encode the domain DNS-like, and hash the assembled message cell (the
`@ton/core` cell construction and hashing are the abstract
`buildCellMessageHash`, which may throw, e.g. on a negative timestamp). -/
def createCellHash (env : SignEnv) (cellB64 schema : String)
    (parsedAddr : ParsedAddress) (domain : String) (timestamp : Int) :
    Except String (List Nat) :=
  match env.cellFromBase64 cellB64 with
  | Except.error e => Except.error e
  | Except.ok cell =>
      let schemaHash := ((env.crc32 (utf8Bytes schema)) % 4294967296).toNat
      let encodedDomain := encodeDomainDnsLike domain
      env.buildCellMessageHash schemaHash timestamp parsedAddr encodedDomain cell

/-- The body of the verifier's `try` block: domain allow-list, 15-minute
staleness, address parse, key resolution, hash construction, Ed25519 verify.
`Except.error` models an exception escaping the block. -/
def checkSignDataCore (env : SignEnv) (req : CheckSignDataRequestDto) :
    Except String Bool :=
  if req.domain ∉ allowedDomains then Except.ok false
  else if env.now - validAuthTime > req.timestamp then Except.ok false
  else
    match env.parseAddress req.address with
    | none => Except.error "Address.parse failed"
    | some parsedAddr =>
        match env.resolveKey req.address with
        | Except.error e => Except.error e
        | Except.ok none => Except.ok false
        | Except.ok (some publicKey) =>
            let hashResult :=
              match req.payload with
              | SignDataPayload.cell c schema =>
                  createCellHash env c schema parsedAddr req.domain req.timestamp
              | SignDataPayload.text t =>
                  createTextBinaryHash env true t parsedAddr req.domain req.timestamp
              | SignDataPayload.binary b =>
                  createTextBinaryHash env false b parsedAddr req.domain req.timestamp
            match hashResult with
            | Except.error e => Except.error e
            | Except.ok finalHash =>
                Except.ok (env.ed25519Verify finalHash
                  (env.decodeBase64 req.signature) publicKey)

/-- Model of `checkSignData`: the boundary — every exception of the `try` block is
caught and converted to `false`. -/
def checkSignData (env : SignEnv) (req : CheckSignDataRequestDto) : Bool :=
  match checkSignDataCore env req with
  | Except.ok b => b
  | Except.error _ => false

/-! ## Helper lemmas -/

theorem find?_append_of_none {α : Type} (l₁ l₂ : List α) (p : α → Bool)
    (h : l₁.find? p = none) : (l₁ ++ l₂).find? p = l₂.find? p := by
  induction l₁ with
  | nil => simp
  | cons a t ih =>
      by_cases hpa : p a = true
      · rw [List.find?_cons_of_pos _ hpa] at h
        cases h
      · rw [List.find?_cons_of_neg _ hpa] at h
        rw [List.cons_append, List.find?_cons_of_neg _ hpa]
        exact ih h

theorem mapGet_eq_none_of_keys {α : Type} (m : List (String × α)) (k : String)
    (h : ∀ p ∈ m, p.1 ≠ k) : mapGet m k = none := by
  unfold mapGet
  rw [List.find?_eq_none.2]
  · rfl
  · intro p hp
    simpa using h p hp

theorem find?_replaceEntry {α : Type} (k : String) (v : α) :
    ∀ m : List (String × α), m.any (fun p => p.1 == k) = true →
      (m.map (fun p => if p.1 == k then (k, v) else p)).find? (fun p => p.1 == k) =
        some (k, v) := by
  intro m
  induction m with
  | nil => intro h; simp at h
  | cons q t ih =>
      intro h
      by_cases hq : q.1 = k
      · have hrepl : (if (q.1 == k) = true then (k, v) else q) = (k, v) := by
          simp [hq]
        simp only [List.map_cons, hrepl]
        rw [List.find?_cons_of_pos]
        simp
      · have hkeep : (if (q.1 == k) = true then (k, v) else q) = q := by
          simp [hq]
        have hqf : (q.1 == k) = false := by
          simp [hq]
        simp only [List.map_cons, hkeep]
        rw [List.find?_cons]
        simp only [hqf]
        apply ih
        rw [List.any_cons, Bool.or_eq_true] at h
        rcases h with h | h
        · exact absurd (by simpa using h) hq
        · exact h

theorem mapGet_mapSet_self {α : Type} (m : List (String × α)) (k : String) (v : α) :
    mapGet (mapSet m k v) k = some v := by
  unfold mapSet
  by_cases hany : m.any (fun p => p.1 == k) = true
  · rw [if_pos hany, mapGet, find?_replaceEntry k v m hany]
    rfl
  · rw [if_neg hany]
    have hnone : m.find? (fun p => p.1 == k) = none := by
      rw [List.find?_eq_none]
      intro p hp hpk
      exact hany (List.any_eq_true.2 ⟨p, hp, hpk⟩)
    rw [mapGet, find?_append_of_none _ _ _ hnone]
    rw [List.find?_cons_of_pos]
    · rfl
    · simp

theorem mapGet_mapDelete_self {α : Type} (m : List (String × α)) (k : String) :
    mapGet (mapDelete m k) k = none := by
  apply mapGet_eq_none_of_keys
  intro p hp
  rw [mapDelete, List.mem_filter] at hp
  simpa using hp.2

/-! ## C7 — detector block check fails open on a data-layer error -/

/-- C7: when the `user_blocks` lookup raises a data-layer error, the block
sub-check fails open — `checkUserBlock` returns "not blocked" instead of
propagating the error, and the evaluate verdict coincides with the verdict for
a user with no block rows at all. -/
theorem blockCheckFailsOpen (st : DbState) (u n : String) (ts now : Int)
    (h : st.blockQueryError = true) :
    checkUserBlock st u now = { isBlocked := false, reason := none } ∧
    (detectSuspiciousActivity st u n ts now).1 =
      (detectSuspiciousActivity
        { st with blockQueryError := false, userBlocks := [] } u n ts now).1 := by
  constructor
  · simp [checkUserBlock, h]
  · simp only [detectSuspiciousActivity, checkUserBlock, h, List.find?]
    split_ifs <;> rfl

/-- Witness for C7 at a concrete erroring store. -/
theorem blockCheckFailsOpen_witness :
    checkUserBlock ⟨[], [], [], [], [], true⟩ "u" 0 = { isBlocked := false, reason := none } ∧
    (detectSuspiciousActivity ⟨[], [], [], [], [], true⟩ "u" "n" 0 0).1 =
      (detectSuspiciousActivity ⟨[], [], [], [], [], false⟩ "u" "n" 0 0).1 :=
  blockCheckFailsOpen ⟨[], [], [], [], [], true⟩ "u" "n" 0 0 rfl

/-! ## C8 — sign-data verification never throws past its boundary -/

/-- C8: `checkSignData` is a total boolean function; whenever the body of its
`try` block raises (modelled by `checkSignDataCore` returning `Except.error`),
the exception is caught and converted to the return value `false`. -/
theorem checkSignDataNeverThrows (env : SignEnv) (req : CheckSignDataRequestDto)
    (e : String) (h : checkSignDataCore env req = Except.error e) :
    checkSignData env req = false := by
  simp [checkSignData, h]

/-- A concrete environment for the sign-data witnesses: address parsing always
throws, and the Ed25519 check always succeeds. -/
def sampleSignEnv : SignEnv where
  parseAddress := fun _ => none
  resolveKey := fun _ => Except.ok none
  sha256 := fun l => l
  ed25519Verify := fun _ _ _ => true
  decodeBase64 := fun _ => []
  crc32 := fun _ => 0
  cellFromBase64 := fun _ => Except.ok []
  buildCellMessageHash := fun _ _ _ _ _ => Except.ok []
  now := 0

/-- Witness for C8: an envelope whose address parse throws is answered `false`. -/
theorem checkSignDataNeverThrows_witness :
    checkSignDataCore sampleSignEnv
      ⟨"sig", "addr", 0, "localhost:5173", SignDataPayload.text "hello", "", ""⟩ =
      Except.error "Address.parse failed" ∧
    checkSignData sampleSignEnv
      ⟨"sig", "addr", 0, "localhost:5173", SignDataPayload.text "hello", "", ""⟩ = false :=
  ⟨rfl, checkSignDataNeverThrows sampleSignEnv
    ⟨"sig", "addr", 0, "localhost:5173", SignDataPayload.text "hello", "", ""⟩
    "Address.parse failed" rfl⟩

/-! ## C9 — the domain allow-list rejects unconditionally -/

/-- C9: an envelope whose domain is not in the explicit allow-list is rejected
by `checkSignData` for every environment — in particular even when the Ed25519
verification of the supplied signature over the reconstructed message would
succeed. -/
theorem domainAllowListRejects (env : SignEnv) (req : CheckSignDataRequestDto)
    (h : req.domain ∉ allowedDomains) :
    checkSignData env req = false := by
  simp [checkSignData, checkSignDataCore, h]

/-- Witness for C9: a disallowed domain is rejected under an environment whose
signature check always succeeds. -/
theorem domainAllowListRejects_witness :
    ("evil.example" ∉ allowedDomains) ∧
    checkSignData sampleSignEnv
      ⟨"sig", "addr", 0, "evil.example", SignDataPayload.text "hello", "", ""⟩ = false :=
  ⟨by decide, domainAllowListRejects sampleSignEnv
    ⟨"sig", "addr", 0, "evil.example", SignDataPayload.text "hello", "", ""⟩ (by decide)⟩

/-! ## C5 — 30-second anti-flood floor of the listen ledger -/

/-- C5: a `recordSessionListen` call whose client timestamp is within 30
seconds of the most recent prior record of the same (user, nft) pair is
rejected, the transaction is rolled back with the store unchanged, and in
particular the per-user pair count and the per-NFT aggregate count are both
unchanged. -/
theorem antiFloodRejects (st : DbState) (user nft collection sid : String)
    (ts now : Int) (r : SessionListenRow)
    (hfind : st.sessionListens.find?
      (fun x => x.userAddress == user && x.nftAddress == nft) = some r)
    (hfast : ts - r.lastRecorded < 30000) :
    recordSessionListen st user nft collection sid ts now =
      (Except.error "Слишком частые запросы прослушивания", st) ∧
    pairCount (recordSessionListen st user nft collection sid ts now).2 user nft =
      pairCount st user nft ∧
    nftAggCount (recordSessionListen st user nft collection sid ts now).2 nft =
      nftAggCount st nft := by
  have h1 : recordSessionListen st user nft collection sid ts now =
      (Except.error "Слишком частые запросы прослушивания", st) := by
    simp [recordSessionListen, hfind, hfast]
  exact ⟨h1, by rw [h1], by rw [h1]⟩

/-- Witness for C5 at a concrete store holding one 10-second-old record. -/
theorem antiFloodRejects_witness :
    recordSessionListen ⟨[⟨"u", "n", "c", "s", 3, 0, 0⟩], [⟨"n", "c", 7, 0⟩], [], [], [], false⟩
        "u" "n" "c" "s2" 10000 10001 =
      (Except.error "Слишком частые запросы прослушивания",
       ⟨[⟨"u", "n", "c", "s", 3, 0, 0⟩], [⟨"n", "c", 7, 0⟩], [], [], [], false⟩) ∧
    pairCount (recordSessionListen
        ⟨[⟨"u", "n", "c", "s", 3, 0, 0⟩], [⟨"n", "c", 7, 0⟩], [], [], [], false⟩
        "u" "n" "c" "s2" 10000 10001).2 "u" "n" =
      pairCount ⟨[⟨"u", "n", "c", "s", 3, 0, 0⟩], [⟨"n", "c", 7, 0⟩], [], [], [], false⟩ "u" "n" ∧
    nftAggCount (recordSessionListen
        ⟨[⟨"u", "n", "c", "s", 3, 0, 0⟩], [⟨"n", "c", 7, 0⟩], [], [], [], false⟩
        "u" "n" "c" "s2" 10000 10001).2 "n" =
      nftAggCount ⟨[⟨"u", "n", "c", "s", 3, 0, 0⟩], [⟨"n", "c", 7, 0⟩], [], [], [], false⟩ "n" :=
  antiFloodRejects ⟨[⟨"u", "n", "c", "s", 3, 0, 0⟩], [⟨"n", "c", 7, 0⟩], [], [], [], false⟩
    "u" "n" "c" "s2" 10000 10001 ⟨"u", "n", "c", "s", 3, 0, 0⟩ (by decide) (by decide)

/-! ## C6 — API-key issuance leaves at most one live key per address -/

/-- C6: after `saveApiKey` completes, the freshly inserted key is present, it
is the only `api_keys` row for the (normalized) address, and every other
surviving row is unexpired — the prior keys of the address and all globally
expired keys were deleted in the same transaction as the insert. -/
theorem apiKeySingleLive (normalize : String → Option String)
    (keys : List ApiKeyRow) (apiKey address : String)
    (created expires now : Int) (na : String) (keys' : List ApiKeyRow)
    (hn : normalize address = some na)
    (hres : saveApiKey normalize keys apiKey address created expires now =
      Except.ok keys') :
    (ApiKeyRow.mk apiKey na created expires) ∈ keys' ∧
    keys'.filter (fun k => k.address == na) = [⟨apiKey, na, created, expires⟩] ∧
    (∀ k ∈ keys', k.expiresAt < now → k = ⟨apiKey, na, created, expires⟩) := by
  rw [saveApiKey, hn] at hres
  have hkeys : keys' =
      (keys.filter (fun k =>
        !(k.address == na || decide (k.expiresAt < now)))) ++
      [⟨apiKey, na, created, expires⟩] := by
    cases hres
    rfl
  subst hkeys
  refine ⟨List.mem_append_right _ (List.mem_singleton.2 rfl), ?_, ?_⟩
  · rw [List.filter_append]
    have h1 : (keys.filter (fun k =>
        !(k.address == na || decide (k.expiresAt < now)))).filter
          (fun k => k.address == na) = [] := by
      rw [List.filter_eq_nil_iff]
      intro k hk
      rw [List.mem_filter] at hk
      have := hk.2
      simp only [Bool.not_eq_true', Bool.or_eq_false_iff] at this
      simp [this.1]
    rw [h1, List.nil_append]
    simp
  · intro k hk hexp
    rcases List.mem_append.1 hk with hk1 | hk2
    · rw [List.mem_filter] at hk1
      have := hk1.2
      simp only [Bool.not_eq_true', Bool.or_eq_false_iff] at this
      exact absurd hexp (by simpa using this.2)
    · simpa using hk2

/-- Witness for C6: issuing a key for address "A" deletes the prior "A" key
and an expired key of another address. -/
theorem apiKeySingleLive_witness :
    saveApiKey some [⟨"old", "A", 0, 100⟩, ⟨"other", "B", 0, 5⟩] "k2" "A" 10 3610 10 =
      Except.ok [⟨"k2", "A", 10, 3610⟩] ∧
    (ApiKeyRow.mk "k2" "A" 10 3610) ∈ [ApiKeyRow.mk "k2" "A" 10 3610] ∧
    ([ApiKeyRow.mk "k2" "A" 10 3610].filter (fun k => k.address == "A") =
      [⟨"k2", "A", 10, 3610⟩]) ∧
    (∀ k ∈ [ApiKeyRow.mk "k2" "A" 10 3610], k.expiresAt < 10 →
      k = ⟨"k2", "A", 10, 3610⟩) :=
  ⟨rfl,
   apiKeySingleLive some [⟨"old", "A", 0, 100⟩, ⟨"other", "B", 0, 5⟩] "k2" "A" 10 3610 10
     "A" [⟨"k2", "A", 10, 3610⟩] rfl rfl⟩

/-! ## C1 — per-NFT repetition check of the detector -/

/-- Under the `UNIQUE(user_address, nft_address)` constraint of the
`session_listens` table, the trailing per-pair count is at most 1. -/
theorem sameNftListenCount_le_one_of_unique (rows : List SessionListenRow)
    (hU : rows.Pairwise (fun a b =>
      a.userAddress ≠ b.userAddress ∨ a.nftAddress ≠ b.nftAddress))
    (u n : String) (now : Int) : sameNftListenCount rows u n now ≤ 1 := by
  unfold sameNftListenCount
  induction hU with
  | nil => simp
  | @cons r t hr ht ih =>
      by_cases hmatch : (r.userAddress == u && r.nftAddress == n &&
          decide (now - 60 * 60 * 1000 < r.lastRecorded)) = true
      · have hru : r.userAddress = u ∧ r.nftAddress = n := by
          simp only [Bool.and_eq_true, beq_iff_eq] at hmatch
          exact ⟨hmatch.1.1, hmatch.1.2⟩
        have hnone : t.filter (fun x => x.userAddress == u && x.nftAddress == n &&
            decide (now - 60 * 60 * 1000 < x.lastRecorded)) = [] := by
          rw [List.filter_eq_nil_iff]
          intro x hx hpx
          have hxu : x.userAddress = u ∧ x.nftAddress = n := by
            simp only [Bool.and_eq_true, beq_iff_eq] at hpx
            exact ⟨hpx.1.1, hpx.1.2⟩
          rcases hr x hx with hd | hd
          · exact hd (hru.1.trans hxu.1.symm)
          · exact hd (hru.2.trans hxu.2.symm)
        simp only [List.filter_cons]
        rw [if_pos hmatch, hnone]
        simp
      · simp only [List.filter_cons]
        rw [if_neg hmatch]
        exact ih

/-- C1: for an evaluate call that passes the block, hourly and daily checks,
a trailing-hour count of more than 10 listens on the exact (user, nft) pair
makes the verdict suspicious and appends a `medium`-severity
`excessive_same_nft_listens` audit row; moreover the count is taken over
`session_listens` rows, whose `UNIQUE(user_address, nft_address)` constraint
caps it at 1. -/
theorem perNftRepetitionFlagsMedium (st : DbState) (u n : String) (ts now : Int)
    (hblock : (checkUserBlock st u now).isBlocked = false)
    (hhour : hourlyListenCount st.sessionListens u now ≤ 50)
    (hday : dailyListenCount st.sessionListens u now ≤ 500)
    (hpair : sameNftListenCount st.sessionListens u n now > 10) :
    (detectSuspiciousActivity st u n ts now).1 =
      { isSuspicious := true, reason := some "Слишком много прослушиваний одного NFT" } ∧
    (detectSuspiciousActivity st u n ts now).2.suspiciousActivities =
      st.suspiciousActivities ++
        [⟨u, "excessive_same_nft_listens",
          toString (sameNftListenCount st.sessionListens u n now) ++
            " прослушиваний одного NFT за час",
          Severity.medium⟩] ∧
    (∀ rows : List SessionListenRow,
      rows.Pairwise (fun a b =>
        a.userAddress ≠ b.userAddress ∨ a.nftAddress ≠ b.nftAddress) →
      ∀ u' n' : String, ∀ now' : Int, sameNftListenCount rows u' n' now' ≤ 1) := by
  have hdet : detectSuspiciousActivity st u n ts now =
      ({ isSuspicious := true, reason := some "Слишком много прослушиваний одного NFT" },
       logSuspiciousActivity st u "excessive_same_nft_listens"
         (toString (sameNftListenCount st.sessionListens u n now) ++
           " прослушиваний одного NFT за час") Severity.medium) := by
    simp only [detectSuspiciousActivity]
    rw [if_neg (by simp [hblock]), if_neg (Nat.not_lt.2 hhour),
      if_neg (Nat.not_lt.2 hday), if_pos hpair]
  refine ⟨by rw [hdet], by rw [hdet]; rfl, ?_⟩
  intro rows hU u' n' now'
  exact sameNftListenCount_le_one_of_unique rows hU u' n' now'

/-- Witness for C1 on a store holding eleven trailing-hour rows of the same
(user, nft) pair (a state only reachable without the UNIQUE constraint). -/
theorem perNftRepetitionFlagsMedium_witness :
    (checkUserBlock ⟨List.replicate 11 ⟨"u", "n", "c", "s", 1, 0, 999000⟩, [], [], [], [], false⟩
        "u" 1000000).isBlocked = false ∧
    sameNftListenCount (List.replicate 11 ⟨"u", "n", "c", "s", 1, 0, 999000⟩) "u" "n" 1000000 > 10 ∧
    (detectSuspiciousActivity
        ⟨List.replicate 11 ⟨"u", "n", "c", "s", 1, 0, 999000⟩, [], [], [], [], false⟩
        "u" "n" 999999 1000000).1 =
      { isSuspicious := true, reason := some "Слишком много прослушиваний одного NFT" } ∧
    (detectSuspiciousActivity
        ⟨List.replicate 11 ⟨"u", "n", "c", "s", 1, 0, 999000⟩, [], [], [], [], false⟩
        "u" "n" 999999 1000000).2.suspiciousActivities =
      [⟨"u", "excessive_same_nft_listens", "11 прослушиваний одного NFT за час",
        Severity.medium⟩] := by
  have h := perNftRepetitionFlagsMedium
    ⟨List.replicate 11 ⟨"u", "n", "c", "s", 1, 0, 999000⟩, [], [], [], [], false⟩
    "u" "n" 999999 1000000 (by decide) (by decide) (by decide) (by decide)
  exact ⟨by decide, by decide, h.1, by rw [h.2.1]; rfl⟩

/-! ## C2 — session expiry: sweep vs. synchronous read -/

/-- A store holding a single session that expired at time 10. -/
def expiredStore : SessionStore :=
  { activeSessions := [("s1", ⟨"s1", "u1", 0, 10, true⟩)]
    userSessions := [("u1", "s1")] }

/-- Counterexample to C2 as stated: at time 20 the session "s1" of
`expiredStore` is expired (expiresAt 10 lies in the past), yet the by-id and
by-address lookups still return it before the sweep runs — `getSession` and
`getUserSession` perform no expiry check. -/
theorem getReturnsExpiredSession :
    ((10 : Int) < 20) ∧
    getSession expiredStore "s1" = some ⟨"s1", "u1", 0, 10, true⟩ ∧
    getUserSession expiredStore "u1" = some "s1" := by
  refine ⟨by decide, ?_, ?_⟩ <;> rfl

theorem sweepFold_keeps_activeKey_absent (now : Int) (k : String) :
    ∀ (l : List (String × SessionData)) (acc : SessionStore),
      (∀ p ∈ acc.activeSessions, p.1 ≠ k) →
      ∀ p ∈ (l.foldl (sweepStep now) acc).activeSessions, p.1 ≠ k := by
  intro l
  induction l with
  | nil => intro acc h; simpa using h
  | cons q t ih =>
      intro acc h
      rw [List.foldl_cons]
      apply ih
      intro p hp
      unfold sweepStep at hp
      by_cases hq : now > q.2.expiresAt
      · rw [if_pos hq] at hp
        simp only at hp
        rw [mapDelete, List.mem_filter] at hp
        exact h p hp.1
      · rw [if_neg hq] at hp
        exact h p hp

theorem sweepFold_keeps_userKey_absent (now : Int) (k : String) :
    ∀ (l : List (String × SessionData)) (acc : SessionStore),
      (∀ q ∈ acc.userSessions, q.1 ≠ k) →
      ∀ q ∈ (l.foldl (sweepStep now) acc).userSessions, q.1 ≠ k := by
  intro l
  induction l with
  | nil => intro acc h; simpa using h
  | cons q t ih =>
      intro acc h
      rw [List.foldl_cons]
      apply ih
      intro p hp
      unfold sweepStep at hp
      by_cases hq : now > q.2.expiresAt
      · rw [if_pos hq] at hp
        simp only at hp
        rw [mapDelete, List.mem_filter] at hp
        exact h p hp.1
      · rw [if_neg hq] at hp
        exact h p hp

theorem sweepFold_removes_expired (now : Int) (sid : String) (s : SessionData)
    (hexp : now > s.expiresAt) :
    ∀ (l : List (String × SessionData)) (acc : SessionStore),
      (sid, s) ∈ l →
      (∀ p ∈ (l.foldl (sweepStep now) acc).activeSessions, p.1 ≠ sid) ∧
      (∀ q ∈ (l.foldl (sweepStep now) acc).userSessions, q.1 ≠ s.userAddress) := by
  intro l
  induction l with
  | nil => intro acc h; simp at h
  | cons q t ih =>
      intro acc hmem
      rw [List.foldl_cons]
      rcases List.mem_cons.1 hmem with heq | hmem'
      · constructor
        · apply sweepFold_keeps_activeKey_absent
          intro p hp
          rw [← heq] at hp
          unfold sweepStep at hp
          rw [if_pos hexp] at hp
          simp only at hp
          rw [mapDelete, List.mem_filter] at hp
          simpa using hp.2
        · apply sweepFold_keeps_userKey_absent
          intro p hp
          rw [← heq] at hp
          unfold sweepStep at hp
          rw [if_pos hexp] at hp
          simp only at hp
          rw [mapDelete, List.mem_filter] at hp
          simpa using hp.2
      · exact ih _ hmem'

/-- C2 (amended): a record with `expiresAt` in the past is absent from both
indices after the sweep runs, and the `checkSession` middleware — where the
synchronous expiry check actually lives — refuses it and removes it on read;
but the plain `getSession`/`getUserSession` lookups perform no expiry check,
so before the sweep they can still return the expired record (see the
counterexample). -/
theorem sessionExpiryAmended (st : SessionStore) (now : Int) (sid : String)
    (s : SessionData) (hget : getSession st sid = some s)
    (hexp : now > s.expiresAt) :
    getSession (sweepSessions st now) sid = none ∧
    getUserSession (sweepSessions st now) s.userAddress = none ∧
    (checkSessionRead st sid now).1 = none ∧
    getSession (checkSessionRead st sid now).2 sid = none := by
  have hmem : (sid, s) ∈ st.activeSessions := by
    unfold getSession mapGet at hget
    cases hfind : st.activeSessions.find? (fun p => p.1 == sid) with
    | none => rw [hfind] at hget; cases hget
    | some p =>
        rw [hfind] at hget
        have hkey := List.find?_some hfind
        have hmem' := List.mem_of_find?_eq_some hfind
        have h2 : p.2 = s := by
          simpa using hget
        have h1 : p.1 = sid := by simpa using hkey
        have : p = (sid, s) := by
          cases p
          simp only at h1 h2
          rw [h1, h2]
        rw [← this]
        exact hmem'
  have hrem := sweepFold_removes_expired now sid s hexp st.activeSessions st hmem
  refine ⟨?_, ?_, ?_, ?_⟩
  · exact mapGet_eq_none_of_keys _ _ hrem.1
  · exact mapGet_eq_none_of_keys _ _ hrem.2
  · simp [checkSessionRead, hget, hexp]
  · have h4 : (checkSessionRead st sid now).2 =
        { activeSessions := mapDelete st.activeSessions sid
          userSessions := mapDelete st.userSessions s.userAddress } := by
      simp [checkSessionRead, hget, hexp]
    rw [getSession, h4]
    exact mapGet_mapDelete_self st.activeSessions sid

/-- Witness for the amended C2 at the concrete expired store. -/
theorem sessionExpiryAmended_witness :
    getSession (sweepSessions expiredStore 20) "s1" = none ∧
    getUserSession (sweepSessions expiredStore 20) "u1" = none ∧
    (checkSessionRead expiredStore "s1" 20).1 = none ∧
    getSession (checkSessionRead expiredStore "s1" 20).2 "s1" = none :=
  sessionExpiryAmended expiredStore 20 "s1" ⟨"s1", "u1", 0, 10, true⟩ rfl (by decide)

/-! ## C3 — the existing-session branch never consults the signature verdict -/

/-- C3: for a request that passes the pre-branch validations, when the
normalized address already owns an unexpired session the route answers with
that session's id and leaves the state unchanged, and the answer is the same
for every signature verdict — the verification step is short-circuited, so the
result is independent of whether the supplied signature is valid or invalid. -/
theorem existingSessionSkipsVerification (env : CreateEnv) (st : ServerState)
    (req : SignDataRequest) (now : Int) (na sid : String) (s : SessionData)
    (h1 : req.signature ≠ "") (h2 : req.address ≠ "") (h3 : req.timestamp ≠ 0)
    (h4 : req.domain ≠ "") (h5 : req.payloadType = "text")
    (h6 : req.payloadText = expectedText)
    (h7 : now / 1000 - req.timestamp ≤ 5 * 60)
    (h8 : env.normalizeAddress req.address = some na)
    (h9 : getUserSession st.store na = some sid)
    (h10 : getSession st.store sid = some s)
    (h11 : now < s.expiresAt) :
    ∀ sigValid : Bool,
      createListeningSession env st req now sigValid =
        (CreateResponse.ok sid s.expiresAt, st) := by
  intro sigValid
  have hne : expectedText ≠ "" := by decide
  have hfresh : ¬ (300 < now / 1000 - req.timestamp) := by omega
  simp [createListeningSession, h1, h2, h3, h4, h5, h6, hne, hfresh, h8, h9, h10, h11]

/-- The route environment of the session-creation witnesses: identity address
normalization and a fixed token. -/
def c3Env : CreateEnv where
  normalizeAddress := fun s => some s
  jwtSign := fun _ _ _ => "fresh"

/-- A server state owning one live session for "addrA". -/
def c3Store : ServerState :=
  { store := { activeSessions := [("sid1", ⟨"sid1", "addrA", 0, 2000000, true⟩)]
               userSessions := [("addrA", "sid1")] }
    listeningSessions := [] }

/-- A well-formed session-creation request of "addrA". -/
def c3Req : SignDataRequest :=
  { signature := "sig"
    address := "addrA"
    timestamp := 1000
    domain := "localhost:5173"
    payloadType := "text"
    payloadText := expectedText
    public_key := ""
    walletStateInit := "" }

/-- Witness for C3: with an invalid and with a valid signature verdict the
route returns the same existing session, unchanged state. -/
theorem existingSessionSkipsVerification_witness :
    createListeningSession c3Env c3Store c3Req 1000000 false =
      (CreateResponse.ok "sid1" 2000000, c3Store) ∧
    createListeningSession c3Env c3Store c3Req 1000000 true =
      (CreateResponse.ok "sid1" 2000000, c3Store) := by
  have h := existingSessionSkipsVerification c3Env c3Store c3Req 1000000 "addrA" "sid1"
    ⟨"sid1", "addrA", 0, 2000000, true⟩ (by decide) (by decide) (by decide) (by decide)
    rfl rfl (by decide) rfl rfl rfl (by decide)
  exact ⟨h false, h true⟩

/-! ## C4 — session creation is idempotent before expiry -/

/-- C4: a first successful creation for an address returns a fresh session id
with a one-hour expiry; a second call for the same normalized address before
that expiry — whatever its signature verdict — returns the very same session
id and leaves the state untouched, so no second session record is inserted. -/
theorem sessionCreationIdempotent (env : CreateEnv) (st : ServerState)
    (req₁ req₂ : SignDataRequest) (now₁ now₂ : Int) (na : String)
    (sigValid₂ : Bool)
    (h1 : req₁.signature ≠ "") (h2 : req₁.address ≠ "") (h3 : req₁.timestamp ≠ 0)
    (h4 : req₁.domain ≠ "") (h5 : req₁.payloadType = "text")
    (h6 : req₁.payloadText = expectedText)
    (h7 : now₁ / 1000 - req₁.timestamp ≤ 5 * 60)
    (h8 : env.normalizeAddress req₁.address = some na)
    (h9 : getUserSession st.store na = none)
    (g1 : req₂.signature ≠ "") (g2 : req₂.address ≠ "") (g3 : req₂.timestamp ≠ 0)
    (g4 : req₂.domain ≠ "") (g5 : req₂.payloadType = "text")
    (g6 : req₂.payloadText = expectedText)
    (g7 : now₂ / 1000 - req₂.timestamp ≤ 5 * 60)
    (g8 : env.normalizeAddress req₂.address = some na)
    (hexp : now₂ < now₁ + 60 * 60 * 1000) :
    (createListeningSession env st req₁ now₁ true).1 =
      CreateResponse.ok (env.jwtSign na req₁.domain req₁.timestamp)
        (now₁ + 60 * 60 * 1000) ∧
    createListeningSession env (createListeningSession env st req₁ now₁ true).2
        req₂ now₂ sigValid₂ =
      (CreateResponse.ok (env.jwtSign na req₁.domain req₁.timestamp)
        (now₁ + 60 * 60 * 1000),
       (createListeningSession env st req₁ now₁ true).2) := by
  have hne : expectedText ≠ "" := by decide
  have hfresh₁ : ¬ (300 < now₁ / 1000 - req₁.timestamp) := by omega
  have hc1 : createListeningSession env st req₁ now₁ true =
      (CreateResponse.ok (env.jwtSign na req₁.domain req₁.timestamp)
        (now₁ + 60 * 60 * 1000),
       { store := addSession st.store (env.jwtSign na req₁.domain req₁.timestamp)
           ⟨env.jwtSign na req₁.domain req₁.timestamp, na, now₁,
            now₁ + 60 * 60 * 1000, true⟩
         listeningSessions := st.listeningSessions ++
           [⟨env.jwtSign na req₁.domain req₁.timestamp, na, now₁,
             now₁ + 60 * 60 * 1000⟩] }) := by
    simp [createListeningSession, verifyAndCreateSession,
      h1, h2, h3, h4, h5, h6, hne, hfresh₁, h8, h9]
  have hg9 : getUserSession (addSession st.store
      (env.jwtSign na req₁.domain req₁.timestamp)
      ⟨env.jwtSign na req₁.domain req₁.timestamp, na, now₁,
       now₁ + 3600000, true⟩) na =
      some (env.jwtSign na req₁.domain req₁.timestamp) := by
    simp [getUserSession, addSession, mapGet_mapSet_self]
  have hg10 : getSession (addSession st.store
      (env.jwtSign na req₁.domain req₁.timestamp)
      ⟨env.jwtSign na req₁.domain req₁.timestamp, na, now₁,
       now₁ + 3600000, true⟩)
      (env.jwtSign na req₁.domain req₁.timestamp) =
      some ⟨env.jwtSign na req₁.domain req₁.timestamp, na, now₁,
        now₁ + 3600000, true⟩ := by
    simp [getSession, addSession, mapGet_mapSet_self]
  have hfresh₂ : ¬ (300 < now₂ / 1000 - req₂.timestamp) := by omega
  have hexp' : now₂ < now₁ + 3600000 := by omega
  constructor
  · rw [hc1]
  · rw [hc1]
    simp [createListeningSession, g1, g2, g3, g4, g5, g6, hne, hfresh₂, g8,
      hg9, hg10, hexp']

/-- Witness for C4: two back-to-back calls for "addrA" return the same token
and the second call inserts nothing. -/
theorem sessionCreationIdempotent_witness :
    (createListeningSession c3Env ⟨⟨[], []⟩, []⟩ c3Req 1000000 true).1 =
      CreateResponse.ok "fresh" 4600000 ∧
    createListeningSession c3Env
        (createListeningSession c3Env ⟨⟨[], []⟩, []⟩ c3Req 1000000 true).2
        c3Req 1000001 false =
      (CreateResponse.ok "fresh" 4600000,
       (createListeningSession c3Env ⟨⟨[], []⟩, []⟩ c3Req 1000000 true).2) :=
  sessionCreationIdempotent c3Env ⟨⟨[], []⟩, []⟩ c3Req c3Req 1000000 1000001 "addrA"
    false (by decide) (by decide) (by decide) (by decide) rfl rfl (by decide) rfl rfl
    (by decide) (by decide) (by decide) (by decide) rfl rfl (by decide) rfl (by decide)

/-! ## C10 — ledger counts only increase, last-recorded only advances -/

theorem find?_map_of_pred_invariant {α : Type} (p : α → Bool) (f : α → α)
    (hf : ∀ x, p (f x) = p x) (l : List α) :
    (l.map f).find? p = (l.find? p).map f := by
  induction l with
  | nil => rfl
  | cons a t ih =>
      rw [List.map_cons, List.find?_cons, List.find?_cons, hf a]
      cases hpa : p a
      · simpa using ih
      · rfl

theorem upsertSessionListen_find?_some (rows : List SessionListenRow)
    (user nft collection sid : String) (ts now : Int) (r : SessionListenRow)
    (hfind : rows.find?
      (fun x => x.userAddress == user && x.nftAddress == nft) = some r) :
    (upsertSessionListen rows user nft collection sid ts now).find?
        (fun x => x.userAddress == user && x.nftAddress == nft) =
      some { r with count := r.count + 1, lastRecorded := ts, sessionId := sid } := by
  have hpr := List.find?_some hfind
  have hmem := List.mem_of_find?_eq_some hfind
  have hany : rows.any (fun x => x.userAddress == user && x.nftAddress == nft) = true := by
    rw [List.any_eq_true]
    exact ⟨r, hmem, hpr⟩
  have hf : ∀ x : SessionListenRow,
      ((fun x => x.userAddress == user && x.nftAddress == nft)
        (if x.userAddress == user && x.nftAddress == nft then
          { x with count := x.count + 1, lastRecorded := ts, sessionId := sid }
        else x)) =
      (fun x => x.userAddress == user && x.nftAddress == nft) x := by
    intro x
    by_cases hx : (x.userAddress == user && x.nftAddress == nft) = true
    · simp [hx]
    · simp [hx]
  rw [upsertSessionListen, if_pos hany, find?_map_of_pred_invariant _ _ hf rows, hfind]
  rw [Option.map_some', if_pos hpr]

theorem upsertSessionListen_find?_none (rows : List SessionListenRow)
    (user nft collection sid : String) (ts now : Int)
    (hfind : rows.find?
      (fun x => x.userAddress == user && x.nftAddress == nft) = none) :
    (upsertSessionListen rows user nft collection sid ts now).find?
        (fun x => x.userAddress == user && x.nftAddress == nft) =
      some ⟨user, nft, collection, sid, 1, now, ts⟩ := by
  have hany : ¬ rows.any (fun x => x.userAddress == user && x.nftAddress == nft) = true := by
    intro hc
    rcases List.any_eq_true.1 hc with ⟨x, hx, hpx⟩
    exact (List.find?_eq_none.1 hfind x hx) hpx
  rw [upsertSessionListen, if_neg hany, find?_append_of_none _ _ _ hfind]
  simp [List.find?_cons]

theorem upsertListen_find?_some (rows : List ListenRow) (nft collection : String)
    (now : Int) (l : ListenRow)
    (hfind : rows.find? (fun x => x.nftAddress == nft) = some l) :
    (upsertListen rows nft collection now).find? (fun x => x.nftAddress == nft) =
      some { l with count := l.count + 1, lastUpdated := now } := by
  have hpr := List.find?_some hfind
  have hmem := List.mem_of_find?_eq_some hfind
  have hany : rows.any (fun x => x.nftAddress == nft) = true := by
    rw [List.any_eq_true]
    exact ⟨l, hmem, hpr⟩
  have hf : ∀ x : ListenRow,
      ((fun x => x.nftAddress == nft)
        (if x.nftAddress == nft then
          { x with count := x.count + 1, lastUpdated := now }
        else x)) =
      (fun x => x.nftAddress == nft) x := by
    intro x
    by_cases hx : (x.nftAddress == nft) = true
    · simp [hx]
    · simp [hx]
  rw [upsertListen, if_pos hany, find?_map_of_pred_invariant _ _ hf rows, hfind]
  rw [Option.map_some', if_pos hpr]

theorem upsertListen_find?_none (rows : List ListenRow) (nft collection : String)
    (now : Int)
    (hfind : rows.find? (fun x => x.nftAddress == nft) = none) :
    (upsertListen rows nft collection now).find? (fun x => x.nftAddress == nft) =
      some ⟨nft, collection, 1, now⟩ := by
  have hany : ¬ rows.any (fun x => x.nftAddress == nft) = true := by
    intro hc
    rcases List.any_eq_true.1 hc with ⟨x, hx, hpx⟩
    exact (List.find?_eq_none.1 hfind x hx) hpx
  rw [upsertListen, if_neg hany, find?_append_of_none _ _ _ hfind]
  simp [List.find?_cons]

/-- C10: every successful `recordSessionListen` adds exactly 1 to the
per-(user, nft) count and exactly 1 to the per-NFT aggregate count, sets the
pair's `last_recorded` to the client timestamp, and that timestamp is strictly
later than any prior `last_recorded` of the pair — so along a sequence of
successful calls both counts only increase and `last_recorded` only advances. -/
theorem listenCountsMonotone (st : DbState) (user nft collection sid : String)
    (ts now : Int) (k : Nat)
    (hok : (recordSessionListen st user nft collection sid ts now).1 = Except.ok k) :
    pairCount (recordSessionListen st user nft collection sid ts now).2 user nft =
      pairCount st user nft + 1 ∧
    nftAggCount (recordSessionListen st user nft collection sid ts now).2 nft =
      nftAggCount st nft + 1 ∧
    pairLast (recordSessionListen st user nft collection sid ts now).2 user nft =
      some ts ∧
    (∀ t₀, pairLast st user nft = some t₀ → t₀ < ts) := by
  have hnft :
      nftAggCount (commitSessionListen st user nft collection sid ts now) nft =
        nftAggCount st nft + 1 := by
    cases hl : st.listens.find? (fun x => x.nftAddress == nft) with
    | none =>
        rw [nftAggCount, nftAggCount, hl]
        simp only [commitSessionListen]
        rw [upsertListen_find?_none _ _ _ _ hl]
    | some l =>
        rw [nftAggCount, nftAggCount, hl]
        simp only [commitSessionListen]
        rw [upsertListen_find?_some _ _ _ _ _ hl]
  cases hfind : st.sessionListens.find?
      (fun x => x.userAddress == user && x.nftAddress == nft) with
  | none =>
      have hrec : recordSessionListen st user nft collection sid ts now =
          (Except.ok 1, commitSessionListen st user nft collection sid ts now) := by
        rw [recordSessionListen, hfind]
      rw [hrec]
      refine ⟨?_, hnft, ?_, ?_⟩
      · rw [pairCount, pairCount, hfind]
        simp only [commitSessionListen]
        rw [upsertSessionListen_find?_none _ _ _ _ _ _ _ hfind]
      · rw [pairLast]
        simp only [commitSessionListen]
        rw [upsertSessionListen_find?_none _ _ _ _ _ _ _ hfind]
        rfl
      · intro t₀ ht₀
        rw [pairLast, hfind] at ht₀
        cases ht₀
  | some r =>
      by_cases hfast : ts - r.lastRecorded < 30000
      · exfalso
        rw [recordSessionListen, hfind] at hok
        simp only [if_pos hfast] at hok
        cases hok
      · have hrec : recordSessionListen st user nft collection sid ts now =
            (Except.ok (r.count + 1),
             commitSessionListen st user nft collection sid ts now) := by
          rw [recordSessionListen, hfind]
          simp only [if_neg hfast]
        rw [hrec]
        refine ⟨?_, hnft, ?_, ?_⟩
        · rw [pairCount, pairCount, hfind]
          simp only [commitSessionListen]
          rw [upsertSessionListen_find?_some _ _ _ _ _ _ _ _ hfind]
        · rw [pairLast]
          simp only [commitSessionListen]
          rw [upsertSessionListen_find?_some _ _ _ _ _ _ _ _ hfind]
          rfl
        · intro t₀ ht₀
          rw [pairLast, hfind] at ht₀
          simp at ht₀
          omega

/-- Witness for C10: a first listen on an empty store succeeds and sets both
counts to 1 with `last_recorded` equal to the client timestamp. -/
theorem listenCountsMonotone_witness :
    (recordSessionListen ⟨[], [], [], [], [], false⟩ "u" "n" "c" "s" 50000 50001).1 =
      Except.ok 1 ∧
    pairCount (recordSessionListen ⟨[], [], [], [], [], false⟩
      "u" "n" "c" "s" 50000 50001).2 "u" "n" =
      pairCount ⟨[], [], [], [], [], false⟩ "u" "n" + 1 ∧
    nftAggCount (recordSessionListen ⟨[], [], [], [], [], false⟩
      "u" "n" "c" "s" 50000 50001).2 "n" =
      nftAggCount ⟨[], [], [], [], [], false⟩ "n" + 1 ∧
    pairLast (recordSessionListen ⟨[], [], [], [], [], false⟩
      "u" "n" "c" "s" 50000 50001).2 "u" "n" = some 50000 := by
  have h := listenCountsMonotone ⟨[], [], [], [], [], false⟩ "u" "n" "c" "s"
    50000 50001 1 rfl
  exact ⟨rfl, h.1, h.2.1, h.2.2.1⟩

end Pttrns
